import Mathlib

/-!
Shallow embedding of the sampling / derived-metrics core of the
desktop-system-monitor repository (src/system.cpp, src/mem.cpp,
src/network.cpp, src/header.h), together with theorems settling the
frozen claims about it.

Modelling conventions:
* C++ `float` / `double` arithmetic is modelled exactly over `ℚ`
  (the claims are about the formulas and clamping, not rounding).
* C++ `long long` tick counters are modelled as `Int` (no overflow is
  reachable for kernel tick counters within the claims' scope).
* C++ `int` struct fields that receive `long long` values (the RX/TX
  network counters) are modelled with an explicit wrap to 32-bit
  two's-complement, since that narrowing is where overflow matters.
* `std::string` contents are modelled as `List Char`; filesystem reads
  are modelled as explicit lookup functions passed to the routine:
  `none` = the file cannot be opened, `some none` = it opens but
  `getline` yields nothing, `some (some l)` = its first line is `l`.
* `std::map` is modelled as a lookup function `key → Option value`
  (insertion order is irrelevant to every claim).
* `chrono::steady_clock::time_point` is modelled as `Int` milliseconds,
  matching the code's `duration_cast<milliseconds>(...).count()`.
-/

/-- Whitespace set skipped by `istream >>` extraction (C locale `isspace`). -/
def isWS (c : Char) : Bool :=
  c = ' ' || c = '\t' || c = '\n' || c = '\r' || c = '\x0b' || c = '\x0c'

/-- Numeric value of a list of decimal digit characters, most significant first. -/
def digitsToNat (ds : List Char) : Nat :=
  ds.foldl (fun a c => 10 * a + (c.toNat - 48)) 0

/-- Model of the C++ integer extraction shared by `stoi` / `stol` / `stoll`
    and `istringstream >> (integer)`: skip leading whitespace, optional sign,
    then a nonempty run of decimal digits; returns the value and the
    unconsumed rest, or `none` when no digits are found (the
    `std::invalid_argument` / failbit case).  The out-of-range exception is
    not modelled; no claim depends on it. -/
def parseIntTok (cs : List Char) : Option (Int × List Char) :=
  let cs' := cs.dropWhile isWS
  let signTail : Bool × List Char :=
    match cs' with
    | c :: rest => if c = '-' then (true, rest) else if c = '+' then (false, rest) else (false, cs')
    | [] => (false, cs')
  let ds := signTail.2.takeWhile Char.isDigit
  if ds.isEmpty then none
  else some ((if signTail.1 then -(digitsToNat ds : Int) else (digitsToNat ds : Int)),
    signTail.2.drop ds.length)

/-- `stoi` / `stol` / `stoll` applied to a string (value only). -/
def stollChars (cs : List Char) : Option Int :=
  (parseIntTok cs).map Prod.fst

/-- Helper for `splitWS`: accumulates the current (reversed) token. -/
def splitWSAux : List Char → List Char → List (List Char)
  | [], acc => if acc.isEmpty then [] else [acc.reverse]
  | c :: rest, acc =>
    if isWS c then
      if acc.isEmpty then splitWSAux rest []
      else acc.reverse :: splitWSAux rest []
    else splitWSAux rest (c :: acc)

/-- Whitespace tokenisation, the model of repeated `istringstream >> field`
    into `std::string` fields (maximal runs of non-whitespace characters). -/
def splitWS (cs : List Char) : List (List Char) :=
  splitWSAux cs []

/-- Model of `std::string::find`: index of the first character satisfying `p`. -/
def ffirst (p : Char → Bool) : List Char → Option Nat
  | [] => none
  | c :: rest => if p c then some 0 else (ffirst p rest).map (· + 1)

/-- Model of `std::string::rfind`: index of the last character satisfying `p`. -/
def rlast (p : Char → Bool) : List Char → Option Nat
  | [] => none
  | c :: rest =>
    match rlast p rest with
    | some i => some (i + 1)
    | none => if p c then some 0 else none

/-- Fuel-driven model of `while (iss >> value) values.push_back(value);`:
    repeatedly extract integers until extraction fails.  Each successful
    extraction consumes at least one character, so fuel `cs.length`
    (used by `readInts`) is always sufficient. -/
def readIntsAux : Nat → List Char → List Int
  | 0, _ => []
  | fuel + 1, cs =>
    match parseIntTok cs with
    | none => []
    | some (v, rest) => v :: readIntsAux fuel rest

/-- The list of integers extracted from a character stream. -/
def readInts (cs : List Char) : List Int :=
  readIntsAux cs.length cs

/-- The rolling-history push used (inline, identically) by
    `updateCPUHistory`, `updateThermalHistory` and `updateFanHistory`:
    `push_back(x); if (size() > 100) erase(begin());`. -/
def pushHistory {α : Type} (h : List α) (x : α) : List α :=
  let h' := h ++ [x]
  if 100 < h'.length then h'.drop 1 else h'

/-! ## CPU aggregate statistics (src/system.cpp) -/

/-- `struct CPUStats` (src/header.h): the 10 cumulative tick counters of the
    kernel's aggregate CPU line, `long long int` in the source. -/
structure CPUStats where
  user : Int
  nice : Int
  system : Int
  idle : Int
  iowait : Int
  irq : Int
  softirq : Int
  steal : Int
  guest : Int
  guestNice : Int

/-- The 8-field (non-guest) total computed inline in `calculateCPUUsage`. -/
def cpuTotalNonGuest (s : CPUStats) : Int :=
  s.user + s.nice + s.system + s.idle + s.iowait + s.irq + s.softirq + s.steal

/-- `calculateCPUUsage` (src/system.cpp:150-179), transcribed step by step:
    totals over the 8 non-guest fields, idle = idle+iowait, early 0 on zero
    total delta, then the percentage with the two sequential clamping `if`s. -/
def calculateCPUUsage (prev curr : CPUStats) : ℚ :=
  let prevTotal := cpuTotalNonGuest prev
  let currTotal := cpuTotalNonGuest curr
  let prevIdle := prev.idle + prev.iowait
  let currIdle := curr.idle + curr.iowait
  let totalDiff := currTotal - prevTotal
  let idleDiff := currIdle - prevIdle
  if totalDiff = 0 then 0
  else
    let usage : ℚ := ((totalDiff - idleDiff : Int) : ℚ) / (totalDiff : ℚ) * 100
    let usage1 := if usage < 0 then 0 else usage
    if 100 < usage1 then 100 else usage1

/-- The specification's wording of `cpuUsagePercent(prev, curr)` (§4.2):
    usage = (totalDelta − idleDelta)/totalDelta × 100 clamped to [0,100],
    0 when totalDelta = 0.  Stated independently of the source transcription
    so the two can be compared. -/
def cpuUsagePercentSpec (prev curr : CPUStats) : ℚ :=
  let totalDelta := cpuTotalNonGuest curr - cpuTotalNonGuest prev
  let idleDelta := (curr.idle + curr.iowait) - (prev.idle + prev.iowait)
  if totalDelta = 0 then 0
  else min 100 (max 0 (((totalDelta - idleDelta : Int) : ℚ) / (totalDelta : ℚ) * 100))

/-! ## Per-process stat parsing (src/mem.cpp, getProcessInfo) -/

/-- `struct Proc` (src/header.h). -/
structure Proc where
  pid : Int
  name : List Char
  state : Char
  vsize : Int
  rss : Int
  utime : Int
  stime : Int
deriving DecidableEq

/-- The stat-line half of `getProcessInfo` (src/mem.cpp:164-231): `pid` and
    `commName` are the values already placed in `proc` before the
    `/proc/[pid]/stat` line is parsed (`commName` from `/proc/[pid]/comm`);
    `line` is the stat line.  `none` models a `stoi`/`stoll` exception
    escaping `getProcessInfo` (caught per-process in `getAllProcesses`).
    Otherwise the parse locates the first `(` and the last `)`, recovers the
    name between them, and whitespace-tokenizes everything after the last
    `)`, reading state, utime, stime, vsize, rss at offsets 0, 11, 12, 20, 21
    (kernel fields 3, 14, 15, 23, 24). -/
def getProcessInfoStat (pid : Int) (commName : List Char) (line : List Char) : Option Proc :=
  let proc : Proc := ⟨pid, commName, '\x00', 0, 0, 0, 0⟩
  match ffirst (· = '(') line, rlast (· = ')') line with
  | some fp, some lp =>
    if fp < lp then
      match stollChars (line.take fp) with
      | none => none
      | some pidv =>
        let fullName := (line.drop (fp + 1)).take (lp - fp - 1)
        let name := if commName.isEmpty then fullName else commName
        let fields := splitWS (line.drop (lp + 1))
        if 22 ≤ fields.length then
          match stollChars (fields.getD 11 []), stollChars (fields.getD 12 []),
                stollChars (fields.getD 20 []), stollChars (fields.getD 21 []) with
          | some ut, some st, some vs, some rs =>
            some { pid := pidv, name := name, state := (fields.getD 0 []).headD '\x00',
                   vsize := vs, rss := rs, utime := ut, stime := st }
          | _, _, _, _ => none
        else some { proc with pid := pidv, name := name }
    else some proc
  | _, _ => some proc

/-! ## Process CPU tracker (src/mem.cpp, updateProcessCPUData) -/

/-- `struct ProcessCPUData`: per-PID cache entry. -/
structure ProcessCPUData where
  prev_utime : Int
  prev_stime : Int
  cpu_percent : ℚ
  last_update : Int

/-- The tracker's shared state: `process_cpu_data` and `last_process_update`. -/
structure ProcState where
  data : Int → Option ProcessCPUData
  lastUpdate : Int

/-- The statics' zero-initialised state at program start. -/
def procInit : ProcState := ⟨fun _ => none, 0⟩

/-- `updateProcessCPUData` (src/mem.cpp:276-323): throttled to every 3000 ms;
    for each currently listed process, an existing cache entry with positive
    elapsed wall time gets percent `min ((Δticks / seconds) / clk * 100) 100`
    and fresh baselines, an unknown PID gets a baseline entry with percent 0.
    `clk` models the `sysconf(_SC_CLK_TCK)` platform constant; `now` the
    current steady-clock time in milliseconds.  The body of the per-process
    loop (src/mem.cpp:288-320) is `procCacheStep`, split out on the cache
    lookup so its two branches can be named in proofs. -/
def procCacheStep (clk now : Int) (proc : Proc) (m : Int → Option ProcessCPUData) :
    Option ProcessCPUData → (Int → Option ProcessCPUData)
  | some e =>
    let currentTotal := proc.utime + proc.stime
    let prevTotal := e.prev_utime + e.prev_stime
    let cpuDiff := currentTotal - prevTotal
    let timeDiff := now - e.last_update
    if 0 < timeDiff then
      let timeSec : ℚ := (timeDiff : ℚ) / 1000
      let cpuPercent : ℚ := ((cpuDiff : ℚ) / timeSec) / (clk : ℚ) * 100
      fun k => if k = proc.pid then
          some ⟨proc.utime, proc.stime, min cpuPercent 100, now⟩
        else m k
    else m
  | none =>
    fun k => if k = proc.pid then some ⟨proc.utime, proc.stime, 0, now⟩ else m k

/-- The throttle check and batch loop of `updateProcessCPUData`
    (src/mem.cpp:276-323). -/
def updateProcessCPUData (clk : Int) (now : Int) (procs : List Proc) (s : ProcState) :
    ProcState :=
  if now - s.lastUpdate < 3000 then s
  else
    let data := procs.foldl (fun m proc => procCacheStep clk now proc m (m proc.pid)) s.data
    ⟨data, now⟩

/-- `getProcessCPUUsage` (src/mem.cpp:368-377): last computed percent, or 0
    for a PID that has never been observed. -/
def getProcessCPUUsage (pid : Int) (s : ProcState) : ℚ :=
  match s.data pid with
  | some e => e.cpu_percent
  | none => 0

/-! ## Network counter cache (src/network.cpp, parseNetworkDevFile)

The `RX`/`TX` structs in src/header.h declare fields `colls`/`carrier` on
`RX` and `frame`/`multicast` on `TX`; the assignments in src/network.cpp use
the opposite (kernel-order) names.  We follow the assignments in
src/network.cpp, which fix which parsed position lands in which slot; the
fields are C `int`, hence the explicit 32-bit wrap. -/

/-- Truncation of a `long long` value to a 32-bit signed `int` field. -/
def wrap32 (v : Int) : Int :=
  (v + 2147483648) % 4294967296 - 2147483648

/-- RX counters as assigned in src/network.cpp:58-68 (8 `int` fields). -/
structure RX where
  bytes : Int
  packets : Int
  errs : Int
  drop : Int
  fifo : Int
  frame : Int
  compressed : Int
  multicast : Int
deriving DecidableEq

/-- TX counters as assigned in src/network.cpp:70-80 (8 `int` fields). -/
structure TX where
  bytes : Int
  packets : Int
  errs : Int
  drop : Int
  fifo : Int
  colls : Int
  carrier : Int
  compressed : Int
deriving DecidableEq

/-- The network module's shared state: `current_rx_stats`, `current_tx_stats`
    and `network_data_ready`. -/
structure NetState where
  rx : List Char → Option RX
  tx : List Char → Option TX
  ready : Bool

/-- The statics' state at program start: empty maps, not ready. -/
def netInit : NetState := ⟨fun _ => none, fun _ => none, false⟩

/-- One iteration of the data-line loop of `parseNetworkDevFile`
    (src/network.cpp:30-82): trim leading spaces/tabs, find the `:` ending
    the interface name, extract all integers after it, and only when at
    least 16 were found store the first 8 as RX and the next 8 as TX. -/
def processNetLine (maps : (List Char → Option RX) × (List Char → Option TX))
    (line : List Char) : (List Char → Option RX) × (List Char → Option TX) :=
  let line' := line.dropWhile (fun c => c = ' ' || c = '\t')
  if line'.isEmpty then maps
  else
    match ffirst (· = ':') line' with
    | none => maps
    | some colonPos =>
      let interfaceName := line'.take colonPos
      let statsLine := line'.drop (colonPos + 1)
      let values := readInts statsLine
      if 16 ≤ values.length then
        let rxs : RX := ⟨wrap32 (values.getD 0 0), wrap32 (values.getD 1 0),
          wrap32 (values.getD 2 0), wrap32 (values.getD 3 0), wrap32 (values.getD 4 0),
          wrap32 (values.getD 5 0), wrap32 (values.getD 6 0), wrap32 (values.getD 7 0)⟩
        let txs : TX := ⟨wrap32 (values.getD 8 0), wrap32 (values.getD 9 0),
          wrap32 (values.getD 10 0), wrap32 (values.getD 11 0), wrap32 (values.getD 12 0),
          wrap32 (values.getD 13 0), wrap32 (values.getD 14 0), wrap32 (values.getD 15 0)⟩
        (fun k => if k = interfaceName then some rxs else maps.1 k,
         fun k => if k = interfaceName then some txs else maps.2 k)
      else maps

/-- `parseNetworkDevFile` (src/network.cpp:12-86): `contents` is the list of
    lines of `/proc/net/dev`, or `none` when the file cannot be opened (in
    which case it returns at once, state untouched).  Otherwise it skips the
    two header lines, clears both maps, repopulates them from the data
    lines, and finally sets the ready flag. -/
def parseNetworkDevFile (contents : Option (List (List Char))) (s : NetState) : NetState :=
  match contents with
  | none => s
  | some lines =>
    let dataLines := lines.drop 2
    let maps := dataLines.foldl processNetLine (fun _ => none, fun _ => none)
    ⟨maps.1, maps.2, true⟩

/-! ## Thermal and fan sensors (src/system.cpp) -/

/-- `struct ThermalInfo` (src/header.h). -/
structure ThermalInfo where
  temperature : ℚ
  available : Bool
deriving DecidableEq

/-- `struct FanInfo` (src/header.h). -/
structure FanInfo where
  speed : Int
  level : Int
  active : Bool
  available : Bool
deriving DecidableEq

/-- A modelled sensor filesystem: path ↦ `none` (cannot open), `some none`
    (opens, no first line), or `some (some l)` (first line `l`). -/
def SensorFS : Type := String → Option (Option String)

/-- Opening `p`, reading its first line and `stol`/`stoi`-parsing it; `none`
    for each of: unopenable file, empty file, unparsable content. -/
def tryReadInt (fs : SensorFS) (p : String) : Option Int :=
  match fs p with
  | some (some content) => stollChars content.data
  | _ => none

/-- The ordered thermal sensor candidates of `getThermalInfo`
    (src/system.cpp:445-450). -/
def thermalPaths : List String :=
  ["/sys/class/thermal/thermal_zone0/temp",
   "/sys/class/thermal/thermal_zone1/temp",
   "/sys/class/hwmon/hwmon0/temp1_input",
   "/sys/class/hwmon/hwmon1/temp1_input",
   "/sys/class/hwmon/hwmon2/temp1_input"]

/-- The candidate loop of `getThermalInfo`: first path whose first line
    parses wins, millidegrees divided by 1000; parse failure (the caught
    `stol` exception) falls through to the next path. -/
def thermalProbe (fs : SensorFS) : List String → ThermalInfo
  | [] => { temperature := 0, available := false }
  | p :: rest =>
    match tryReadInt fs p with
    | some raw => { temperature := (raw : ℚ) / 1000, available := true }
    | none => thermalProbe fs rest

/-- `getThermalInfo` (src/system.cpp:438-479). -/
def getThermalInfo (fs : SensorFS) : ThermalInfo :=
  thermalProbe fs thermalPaths

/-- `to_string(fan_num)` for the loop `for (fan_num = 1; fan_num <= 4; ...)`. -/
def fanNums : List String := ["1", "2", "3", "4"]

/-- One `fan_num` iteration of `getFanInfo` (src/system.cpp:630-686) on one
    hwmon directory.  Returns (returned?, info): `true` means the function
    returns `info` now; `false` means the loop continues with `info` (which
    the `catch` keeps even when a later `stoi` throws after `info` has
    already been mutated). -/
def tryFanWithSpeed (fs : SensorFS) (info : FanInfo) (dir n : String) :
    Option Int → Bool × FanInfo
  | none => (false, info)
  | some sp =>
    let info1 : FanInfo := { info with speed := sp, available := true }
    let step2 : Bool × FanInfo :=
      match fs (dir ++ "/fan" ++ n ++ "_enable") with
      | some (some enableStr) =>
        match stollChars enableStr.data with
        | none => (false, info1)
        | some ev => (true, { info1 with active := ev = 1 })
      | some none => (true, info1)
      | none => (true, { info1 with active := 0 < sp })
    match step2 with
    | (false, i) => (false, i)
    | (true, i2) =>
      match fs (dir ++ "/pwm" ++ n) with
      | some (some pwmStr) =>
        match stollChars pwmStr.data with
        | none => (false, i2)
        | some pv => (true, { i2 with level := pv })
      | _ => (true, i2)

/-- The whole `fan_num` iteration, its speed-file read factored through
    `tryReadInt` (any of missing file, empty file, failed `stoi` means this
    fan index is skipped with `info` unchanged). -/
def tryFanNum (fs : SensorFS) (info : FanInfo) (dir n : String) : Bool × FanInfo :=
  tryFanWithSpeed fs info dir n (tryReadInt fs (dir ++ "/fan" ++ n ++ "_input"))

/-- The inner `fan_num` loop over `fanNums`. -/
def tryFanList (fs : SensorFS) (dir : String) : FanInfo → List String → Bool × FanInfo
  | info, [] => (false, info)
  | info, n :: rest =>
    match tryFanNum fs info dir n with
    | (true, i) => (true, i)
    | (false, i) => tryFanList fs dir i rest

/-- The outer directory loop of `getFanInfo`; at the end the accumulated
    `info` is returned as-is. -/
def fanDirsLoop (fs : SensorFS) : FanInfo → List String → FanInfo
  | info, [] => info
  | info, d :: rest =>
    match tryFanList fs d info fanNums with
    | (true, i) => i
    | (false, i) => fanDirsLoop fs i rest

/-- `getFanInfo` (src/system.cpp:612-696): `dirs` is the directory-entry
    list of `/sys/class/hwmon/` (empty when the directory itself is
    missing, the outer `catch`). -/
def getFanInfo (fs : SensorFS) (dirs : List String) : FanInfo :=
  fanDirsLoop fs ⟨0, 0, false, false⟩ dirs

/-- The thermal module's shared state: `current_temperature`,
    `thermal_history`, `thermal_available`, `thermal_paused`. -/
structure ThermalState where
  curTemp : ℚ
  hist : List ℚ
  available : Bool
  paused : Bool

/-- `updateThermalHistory` (src/system.cpp:482-503): always stores the fresh
    availability flag; only when available does it store the temperature and
    (when not paused) push it onto the history. -/
def updateThermalHistory (fs : SensorFS) (s : ThermalState) : ThermalState :=
  let info := getThermalInfo fs
  let s1 := { s with available := info.available }
  if info.available then
    let s2 := { s1 with curTemp := info.temperature }
    if s.paused then s2
    else { s2 with hist := pushHistory s2.hist info.temperature }
  else s1

/-- A list of tokens laid out as a character stream, each preceded by one
    space (the shape of the tail of a stat line or a `/proc/net/dev` data
    line). -/
def spaceJoin (toks : List (List Char)) : List Char :=
  toks.foldr (fun t r => (' ' :: t) ++ r) []

/-- A decimal-numeral token denoting the integer `v`, the textual form
    consumed by `istringstream >> (long long)`: an optional minus sign and a
    nonempty run of digits. -/
def numeralDenotes (t : List Char) (v : Int) : Prop :=
  ∃ ds : List Char, ds ≠ [] ∧ (∀ c ∈ ds, c.isDigit = true) ∧
    ((t = ds ∧ v = (digitsToNat ds : Int)) ∨
     (t = '-' :: ds ∧ v = -(digitsToNat ds : Int)))

/-! ## Theorems -/

/-- C1: for every pair of CPU snapshots, `calculateCPUUsage` agrees with the
    spec's `cpuUsagePercent` (8-field non-guest total, idle = idle+iowait,
    (totalDelta − idleDelta)/totalDelta × 100 clamped to [0,100], 0 on zero
    total delta), and the result always lies in [0,100]. -/
theorem c1_calculateCPUUsage_matches_spec_and_bounded (prev curr : CPUStats) :
    calculateCPUUsage prev curr = cpuUsagePercentSpec prev curr ∧
    0 ≤ calculateCPUUsage prev curr ∧ calculateCPUUsage prev curr ≤ 100 := by
  unfold calculateCPUUsage cpuUsagePercentSpec
  by_cases h : cpuTotalNonGuest curr - cpuTotalNonGuest prev = 0
  · simp [h]
  · simp only [h, if_false]
    set u : ℚ := (((cpuTotalNonGuest curr - cpuTotalNonGuest prev) -
        ((curr.idle + curr.iowait) - (prev.idle + prev.iowait)) : Int) : ℚ) /
        ((cpuTotalNonGuest curr - cpuTotalNonGuest prev : Int) : ℚ) * 100 with hu
    by_cases h0 : u < 0
    · have hn : ¬ (100:ℚ) < 0 := by norm_num
      simp only [if_pos h0, if_neg hn]
      exact ⟨by rw [max_eq_left h0.le, min_eq_right (by norm_num : (0:ℚ) ≤ 100)],
        le_refl 0, by norm_num⟩
    · simp only [if_neg h0]
      push_neg at h0
      by_cases h100 : 100 < u
      · simp only [if_pos h100]
        exact ⟨by rw [max_eq_right h0, min_eq_left h100.le], by norm_num, le_refl 100⟩
      · simp only [if_neg h100]
        push_neg at h100
        exact ⟨by rw [max_eq_right h0, min_eq_right h100], h0, h100⟩

/-- Helper: pushing a whole list of samples keeps exactly the tail of the
    concatenation that fits in the 100-sample window. -/
theorem pushHistory_foldl_drop {α : Type} (xs : List α) :
    ∀ (h : List α), h.length ≤ 100 →
      List.foldl pushHistory h xs = (h ++ xs).drop (h.length + xs.length - 100) := by
  induction xs with
  | nil =>
    intro h hh
    simp [Nat.sub_eq_zero_of_le hh]
  | cons x xs ih =>
    intro h hh
    rw [List.foldl_cons]
    by_cases hfull : 100 < h.length + 1
    · have hlen : h.length = 100 := by omega
      have hpush : pushHistory h x = (h ++ [x]).drop 1 := by
        simp [pushHistory, hlen]
      have hlen' : ((h ++ [x]).drop 1).length = 100 := by
        simp [hlen]
      rw [hpush, ih _ (le_of_eq hlen')]
      have e1 : List.drop 1 (h ++ [x]) ++ xs = List.drop 1 ((h ++ [x]) ++ xs) :=
        (List.drop_append_of_le_length (by simp [hlen] : 1 ≤ (h ++ [x]).length)).symm
      rw [hlen', e1, List.drop_drop]
      have : (h ++ [x]) ++ xs = h ++ x :: xs := by simp
      rw [this]
      congr 1
      simp [hlen]
      omega
    · have hpush : pushHistory h x = h ++ [x] := by
        simp only [pushHistory, List.length_append, List.length_singleton]
        rw [if_neg hfull]
      rw [hpush, ih _ (by simp; omega)]
      have : (h ++ [x]) ++ xs = h ++ x :: xs := by simp
      rw [this]
      congr 1
      simp
      omega

/-- C2: pushing 150 samples into the (initially empty) rolling history buffer
    leaves exactly the last 100 pushed samples, in order; and a single push
    never grows a buffer of at most 100 samples beyond 100. -/
theorem c2_history_buffer_capacity {α : Type} (xs : List α) (hlen : xs.length = 150) :
    (List.foldl pushHistory ([] : List α) xs).length = 100 ∧
    List.foldl pushHistory ([] : List α) xs = xs.drop 50 ∧
    ∀ (h : List α) (x : α), h.length ≤ 100 → (pushHistory h x).length ≤ 100 := by
  have hfold := pushHistory_foldl_drop xs ([] : List α) (by simp)
  simp only [List.nil_append, List.length_nil, Nat.zero_add, hlen] at hfold
  refine ⟨?_, hfold, ?_⟩
  · rw [hfold]
    simp [hlen]
  · intro h x hh
    simp only [pushHistory, List.length_append, List.length_singleton]
    by_cases hfull : 100 < h.length + 1
    · rw [if_pos hfull]
      simp
      omega
    · rw [if_neg hfull]
      simp
      omega

/-- Witness for C2 at a concrete run of 150 samples. -/
theorem c2_history_buffer_capacity_witness :
    (List.range 150).length = 150 ∧
    ((List.foldl pushHistory ([] : List ℕ) (List.range 150)).length = 100 ∧
      List.foldl pushHistory ([] : List ℕ) (List.range 150) = (List.range 150).drop 50 ∧
      ∀ (h : List ℕ) (x : ℕ), h.length ≤ 100 → (pushHistory h x).length ≤ 100) :=
  ⟨by simp, c2_history_buffer_capacity (List.range 150) (by simp)⟩

/-- Helper: a digit character is distinct from any non-digit character. -/
theorem isDigit_ne (c x : Char) (h : c.isDigit = true) (hx : x.isDigit = false) : c ≠ x := by
  intro he
  rw [he, hx] at h
  exact Bool.false_ne_true h

/-- Helper: digit characters are not in the `istream` whitespace set. -/
theorem isDigit_not_ws (c : Char) (h : c.isDigit = true) : isWS c = false := by
  have h1 := isDigit_ne c ' ' h (by decide)
  have h2 := isDigit_ne c '\t' h (by decide)
  have h3 := isDigit_ne c '\n' h (by decide)
  have h4 := isDigit_ne c '\r' h (by decide)
  have h5 := isDigit_ne c '\x0b' h (by decide)
  have h6 := isDigit_ne c '\x0c' h (by decide)
  simp [isWS, h1, h2, h3, h4, h5, h6]

/-- Helper: `takeWhile` over a run of satisfying characters followed by a
    rest whose head does not satisfy returns exactly the run. -/
theorem takeWhile_append_of (p : Char → Bool) (ds rest : List Char)
    (hds : ∀ c ∈ ds, p c = true)
    (hrest : ∀ r, rest.head? = some r → p r = false) :
    (ds ++ rest).takeWhile p = ds := by
  induction ds with
  | nil =>
    cases rest with
    | nil => simp
    | cons r t => simp [List.takeWhile_cons, hrest r rfl]
  | cons d t ih =>
    simp only [List.cons_append, List.takeWhile_cons, hds d (by simp), if_true]
    rw [ih (fun c hc => hds c (by simp [hc]))]

/-- Helper: extracting an integer from an unsigned numeral followed by rest
    whose head is not a digit. -/
theorem parseIntTok_numeral (ds rest : List Char) (hne : ds ≠ [])
    (hds : ∀ c ∈ ds, c.isDigit = true)
    (hrest : ∀ r, rest.head? = some r → r.isDigit = false) :
    parseIntTok (ds ++ rest) = some ((digitsToNat ds : Int), rest) := by
  obtain ⟨d, t, rfl⟩ : ∃ d t, ds = d :: t := by
    cases ds with
    | nil => exact absurd rfl hne
    | cons d t => exact ⟨d, t, rfl⟩
  have hd := hds d (by simp)
  have hws : isWS d = false := isDigit_not_ws d hd
  have hminus : d ≠ '-' := isDigit_ne d '-' hd (by decide)
  have hplus : d ≠ '+' := isDigit_ne d '+' hd (by decide)
  unfold parseIntTok
  rw [List.cons_append, List.dropWhile_cons, hws]
  simp only [Bool.false_eq_true, if_false, if_neg hminus, if_neg hplus]
  rw [← List.cons_append, takeWhile_append_of Char.isDigit (d :: t) rest hds hrest]
  simp only [List.isEmpty_cons, Bool.false_eq_true, if_false]
  rw [List.drop_left]

/-- Helper: extracting an integer from a minus-signed numeral. -/
theorem parseIntTok_neg_numeral (ds rest : List Char) (hne : ds ≠ [])
    (hds : ∀ c ∈ ds, c.isDigit = true)
    (hrest : ∀ r, rest.head? = some r → r.isDigit = false) :
    parseIntTok (('-' :: ds) ++ rest) = some (-(digitsToNat ds : Int), rest) := by
  unfold parseIntTok
  rw [List.cons_append, List.dropWhile_cons]
  simp only [show isWS '-' = false from by decide, Bool.false_eq_true, if_false, reduceIte]
  rw [takeWhile_append_of Char.isDigit ds rest hds hrest]
  have hne' : ds.isEmpty = false := by
    cases ds with
    | nil => exact absurd rfl hne
    | cons a b => rfl
  simp only [hne', Bool.false_eq_true, if_false, if_true, reduceIte]
  rw [List.drop_left]

/-- Helper: extraction skips a leading space. -/
theorem parseIntTok_space (cs : List Char) : parseIntTok (' ' :: cs) = parseIntTok cs := by
  have hdw : (' ' :: cs).dropWhile isWS = cs.dropWhile isWS := by
    rw [List.dropWhile_cons]
    simp [show isWS ' ' = true from by decide]
  unfold parseIntTok
  rw [hdw]

/-- Helper: index of the first satisfying character in a split list. -/
theorem ffirst_append (p : Char → Bool) (l1 : List Char) (c : Char) (l2 : List Char)
    (h1 : ∀ a ∈ l1, p a = false) (hc : p c = true) :
    ffirst p (l1 ++ c :: l2) = some l1.length := by
  induction l1 with
  | nil => simp [ffirst, hc]
  | cons a t ih =>
    simp only [List.cons_append, ffirst, h1 a (by simp), Bool.false_eq_true, if_false,
      List.append_eq]
    rw [ih (fun x hx => h1 x (by simp [hx]))]
    simp

/-- Helper: `rfind` misses a list with no satisfying character. -/
theorem rlast_eq_none (p : Char → Bool) (l : List Char) (h : ∀ a ∈ l, p a = false) :
    rlast p l = none := by
  induction l with
  | nil => rfl
  | cons a t ih =>
    simp only [rlast, ih (fun x hx => h x (by simp [hx])), h a (by simp)]
    simp

/-- Helper: index of the last satisfying character in a split list. -/
theorem rlast_append (p : Char → Bool) (l1 : List Char) (c : Char) (l2 : List Char)
    (hc : p c = true) (h2 : ∀ a ∈ l2, p a = false) :
    rlast p (l1 ++ c :: l2) = some l1.length := by
  induction l1 with
  | nil =>
    simp only [List.nil_append, rlast, rlast_eq_none p l2 h2, hc]
    simp
  | cons a t ih =>
    simp only [List.cons_append, rlast, List.append_eq]
    rw [ih]
    rfl

/-- Helper: `splitWSAux` passes a whitespace-free run into the accumulator. -/
theorem splitWSAux_token (t : List Char) : ∀ (rest acc : List Char),
    (∀ c ∈ t, isWS c = false) →
    splitWSAux (t ++ rest) acc = splitWSAux rest (t.reverse ++ acc) := by
  induction t with
  | nil => intro rest acc _; simp
  | cons c t' ih =>
    intro rest acc hok
    simp only [List.cons_append, splitWSAux, hok c (by simp), Bool.false_eq_true, if_false,
      List.append_eq]
    rw [ih rest (c :: acc) (fun x hx => hok x (by simp [hx]))]
    simp

/-- Helper: tokenising a space-joined token list recovers the tokens. -/
theorem splitWSAux_spaceJoin (toks : List (List Char)) : ∀ acc : List Char,
    (∀ t ∈ toks, t ≠ [] ∧ ∀ c ∈ t, isWS c = false) →
    splitWSAux (spaceJoin toks) acc =
      (if acc.isEmpty then [] else [acc.reverse]) ++ toks := by
  induction toks with
  | nil =>
    intro acc _
    simp [spaceJoin, splitWSAux]
  | cons t ts ih =>
    intro acc hok
    have hts : spaceJoin (t :: ts) = ' ' :: (t ++ spaceJoin ts) := by
      simp [spaceJoin]
    rw [hts]
    have htok := hok t (by simp)
    have hcommon : splitWSAux (t ++ spaceJoin ts) [] = t :: ts := by
      rw [splitWSAux_token t (spaceJoin ts) [] htok.2, List.append_nil]
      rw [ih t.reverse (fun x hx => hok x (by simp [hx]))]
      have hne : t.reverse.isEmpty = false := by
        cases t with
        | nil => exact absurd rfl htok.1
        | cons a b => simp
      simp [hne]
    simp only [splitWSAux, show isWS ' ' = true from by decide, if_true]
    cases hacc : acc.isEmpty with
    | true => simp [hacc, hcommon]
    | false => simp [hacc, hcommon]

/-- Helper: `splitWS` of a space-joined token list is the token list. -/
theorem splitWS_spaceJoin (toks : List (List Char))
    (hok : ∀ t ∈ toks, t ≠ [] ∧ ∀ c ∈ t, isWS c = false) :
    splitWS (spaceJoin toks) = toks := by
  rw [splitWS, splitWSAux_spaceJoin toks [] hok]
  rfl

/-- Helper: `stoll` on a digit run followed by non-digit rest. -/
theorem stollChars_digits (ds rest : List Char) (hne : ds ≠ [])
    (hds : ∀ c ∈ ds, c.isDigit = true)
    (hrest : ∀ r, rest.head? = some r → r.isDigit = false) :
    stollChars (ds ++ rest) = some (digitsToNat ds : Int) := by
  rw [stollChars, parseIntTok_numeral ds rest hne hds hrest]
  rfl

/-- Helper: every character of a space-joined token list is a space or a
    token character. -/
theorem spaceJoin_mem (toks : List (List Char)) (a : Char) (h : a ∈ spaceJoin toks) :
    a = ' ' ∨ ∃ t ∈ toks, a ∈ t := by
  induction toks with
  | nil => simp [spaceJoin] at h
  | cons t ts ih =>
    have hts : spaceJoin (t :: ts) = ' ' :: (t ++ spaceJoin ts) := by simp [spaceJoin]
    rw [hts] at h
    rcases List.mem_cons.mp h with h | h
    · exact Or.inl h
    · rcases List.mem_append.mp h with h | h
      · exact Or.inr ⟨t, by simp, h⟩
      · rcases ih h with h | ⟨t', ht', ha⟩
        · exact Or.inl h
        · exact Or.inr ⟨t', by simp [ht'], ha⟩

/-- C3: on a stat line `pid (name) tok₃ tok₄ …` whose command name may
    contain arbitrary characters (spaces and parentheses included), the
    parser bounds the name by the first `(` and the last `)`, recovers the
    full bracketed name, and whitespace-tokenizes the remainder so that
    state, utime, stime, vsize and rss are read at relative offsets
    0, 11, 12, 20, 21 after the last `)` (kernel fields 3, 14, 15, 23, 24). -/
theorem c3_stat_line_parsing (pidStr name : List Char) (toks : List (List Char))
    (u s vs rs : Int)
    (hpidne : pidStr ≠ []) (hpid : ∀ c ∈ pidStr, c.isDigit = true)
    (htoklen : 22 ≤ toks.length)
    (htok : ∀ t ∈ toks, t ≠ [] ∧ ∀ c ∈ t, isWS c = false ∧ c ≠ ')')
    (hu : stollChars (toks.getD 11 []) = some u)
    (hs : stollChars (toks.getD 12 []) = some s)
    (hv : stollChars (toks.getD 20 []) = some vs)
    (hr : stollChars (toks.getD 21 []) = some rs) :
    getProcessInfoStat 0 [] (pidStr ++ ' ' :: '(' :: (name ++ ')' :: spaceJoin toks)) =
      some { pid := (digitsToNat pidStr : Int), name := name,
             state := (toks.getD 0 []).headD '\x00',
             vsize := vs, rss := rs, utime := u, stime := s } := by
  set line : List Char := pidStr ++ ' ' :: '(' :: (name ++ ')' :: spaceJoin toks) with hline
  -- the first '(' of the line
  have hfp : ffirst (· = '(') line = some (pidStr.length + 1) := by
    have hshape : line = (pidStr ++ [' ']) ++ '(' :: (name ++ ')' :: spaceJoin toks) := by
      simp [hline]
    rw [hshape, ffirst_append]
    · simp
    · intro a ha
      rcases List.mem_append.mp ha with ha | ha
      · have := isDigit_ne a '(' (hpid a ha) (by decide)
        simp [this]
      · have : a = ' ' := by simpa using ha
        subst this
        decide
    · simp
  -- the last ')' of the line
  have hlp : rlast (· = ')') line = some (pidStr.length + 2 + name.length) := by
    have hshape : line = (pidStr ++ ' ' :: '(' :: name) ++ ')' :: spaceJoin toks := by
      simp [hline]
    rw [hshape, rlast_append]
    · congr 1
      simp
      omega
    · simp
    · intro a ha
      rcases spaceJoin_mem toks a ha with h | ⟨t, ht, hat⟩
      · subst h
        decide
      · have := ((htok t ht).2 a hat).2
        simp [this]
  -- the pid text before the first '(' parses back to the pid
  have hpidparse : stollChars (line.take (pidStr.length + 1)) =
      some (digitsToNat pidStr : Int) := by
    have hshape : line = (pidStr ++ [' ']) ++ '(' :: (name ++ ')' :: spaceJoin toks) := by
      simp [hline]
    have hlen : pidStr.length + 1 = (pidStr ++ [' ']).length := by simp
    rw [hshape, hlen, List.take_left]
    exact stollChars_digits pidStr [' '] hpidne hpid (by intro r hr'; simp at hr'; subst hr'; decide)
  -- the bracketed name is recovered in full
  have hname : (line.drop (pidStr.length + 1 + 1)).take
      (pidStr.length + 2 + name.length - (pidStr.length + 1) - 1) = name := by
    have harith : pidStr.length + 2 + name.length - (pidStr.length + 1) - 1 = name.length := by
      omega
    rw [harith]
    have hshape : line = (pidStr ++ [' ', '(']) ++ (name ++ ')' :: spaceJoin toks) := by
      simp [hline]
    have hlen : pidStr.length + 1 + 1 = (pidStr ++ [' ', '(']).length := by simp
    rw [hshape, hlen, List.drop_left]
    exact List.take_left name (')' :: spaceJoin toks)
  -- the remainder after the last ')' tokenizes to the tokens
  have hfields : splitWS (line.drop (pidStr.length + 2 + name.length + 1)) = toks := by
    have hshape : line = (pidStr ++ ' ' :: '(' :: (name ++ [')'])) ++ spaceJoin toks := by
      simp [hline]
    have hlen : pidStr.length + 2 + name.length + 1 =
        (pidStr ++ ' ' :: '(' :: (name ++ [')'])).length := by
      simp
      omega
    rw [hshape, hlen, List.drop_left]
    exact splitWS_spaceJoin toks (fun t ht => ⟨(htok t ht).1,
      fun c hc => ((htok t ht).2 c hc).1⟩)
  -- now run the parser
  unfold getProcessInfoStat
  rw [hfp, hlp]
  simp only []
  rw [if_pos (by omega : pidStr.length + 1 < pidStr.length + 2 + name.length)]
  rw [hpidparse]
  simp only [List.isEmpty_nil, if_true, hname, hfields]
  rw [if_pos htoklen, hu, hs, hv, hr]

/-- Witness for C3 on the spec's own example name `my (weird) app`. -/
theorem c3_stat_line_parsing_witness :
    getProcessInfoStat 0 []
      (("1234").toList ++ ' ' :: '(' :: (("my (weird) app").toList ++ ')' ::
        spaceJoin [("S").toList, ("1").toList, ("2").toList, ("3").toList, ("4").toList,
          ("5").toList, ("6").toList, ("7").toList, ("8").toList, ("9").toList,
          ("10").toList, ("300").toList, ("400").toList, ("13").toList, ("14").toList,
          ("15").toList, ("16").toList, ("17").toList, ("18").toList, ("19").toList,
          ("5000").toList, ("600").toList])) =
      some { pid := (1234 : Int), name := ("my (weird) app").toList, state := 'S',
             vsize := 5000, rss := 600, utime := 300, stime := 400 } := by
  have h := c3_stat_line_parsing ("1234").toList ("my (weird) app").toList
    [("S").toList, ("1").toList, ("2").toList, ("3").toList, ("4").toList,
     ("5").toList, ("6").toList, ("7").toList, ("8").toList, ("9").toList,
     ("10").toList, ("300").toList, ("400").toList, ("13").toList, ("14").toList,
     ("15").toList, ("16").toList, ("17").toList, ("18").toList, ("19").toList,
     ("5000").toList, ("600").toList]
    300 400 5000 600
    (by decide) (by decide) (by decide) (by decide)
    (by decide) (by decide) (by decide) (by decide)
  exact h

/-- C4: a PID never observed reads 0; the first refresh pass observing it
    establishes a baseline still reading 0; a second refresh pass (past the
    3000 ms throttle) with a positive tick delta and positive elapsed time
    yields a percent strictly greater than 0 and at most 100. -/
theorem c4_process_cpu_tracker (clk t1 t2 p : Int) (proc1 proc2 : Proc)
    (hp1 : proc1.pid = p) (hp2 : proc2.pid = p)
    (hclk : 0 < clk) (ht1 : 3000 ≤ t1) (ht2 : 3000 ≤ t2 - t1)
    (hdelta : 0 < proc2.utime + proc2.stime - (proc1.utime + proc1.stime)) :
    (∀ q : Int, getProcessCPUUsage q procInit = 0) ∧
    getProcessCPUUsage p (updateProcessCPUData clk t1 [proc1] procInit) = 0 ∧
    0 < getProcessCPUUsage p (updateProcessCPUData clk t2 [proc2]
        (updateProcessCPUData clk t1 [proc1] procInit)) ∧
    getProcessCPUUsage p (updateProcessCPUData clk t2 [proc2]
        (updateProcessCPUData clk t1 [proc1] procInit)) ≤ 100 := by
  have hs1 : updateProcessCPUData clk t1 [proc1] procInit =
      ⟨fun k => if k = proc1.pid then some ⟨proc1.utime, proc1.stime, 0, t1⟩ else none,
        t1⟩ := by
    unfold updateProcessCPUData
    rw [if_neg (show ¬ (t1 - procInit.lastUpdate < 3000) by
      simp only [procInit]
      omega)]
    simp [procInit, procCacheStep]
  have hs2 : updateProcessCPUData clk t2 [proc2]
      (updateProcessCPUData clk t1 [proc1] procInit) =
      ⟨fun k => if k = proc2.pid then
          some ⟨proc2.utime, proc2.stime,
            min ((((proc2.utime + proc2.stime - (proc1.utime + proc1.stime) : Int) : ℚ) /
              (((t2 - t1 : Int) : ℚ) / 1000)) / (clk : ℚ) * 100) 100, t2⟩
        else if k = proc1.pid then some ⟨proc1.utime, proc1.stime, 0, t1⟩ else none,
        t2⟩ := by
    rw [hs1]
    unfold updateProcessCPUData
    rw [if_neg (show ¬ (t2 - (⟨fun k => if k = proc1.pid then
        some ⟨proc1.utime, proc1.stime, 0, t1⟩ else none, t1⟩ : ProcState).lastUpdate < 3000)
      by simp only []; omega)]
    simp only [List.foldl_cons, List.foldl_nil]
    have hlook : (fun k => if k = proc1.pid then
        some (⟨proc1.utime, proc1.stime, 0, t1⟩ : ProcessCPUData) else none) proc2.pid =
        some ⟨proc1.utime, proc1.stime, 0, t1⟩ := by
      simp [hp1, hp2]
    simp only [hlook, procCacheStep]
    rw [if_pos (show (0:Int) < t2 - t1 by omega)]
  refine ⟨fun q => rfl, ?_, ?_, ?_⟩
  · rw [hs1]
    unfold getProcessCPUUsage
    simp [hp1]
  · rw [hs2]
    unfold getProcessCPUUsage
    simp only [hp2, if_pos rfl]
    have hΔ : (0:ℚ) < ((proc2.utime + proc2.stime - (proc1.utime + proc1.stime) : Int) : ℚ) := by
      exact_mod_cast hdelta
    have hT : (0:ℚ) < ((t2 - t1 : Int) : ℚ) / 1000 := by
      have h1 : (0:ℚ) < ((t2 - t1 : Int) : ℚ) := by
        exact_mod_cast (show (0:Int) < t2 - t1 by omega)
      exact div_pos h1 (by norm_num)
    have hC : (0:ℚ) < (clk : ℚ) := by exact_mod_cast hclk
    exact lt_min (mul_pos (div_pos (div_pos hΔ hT) hC) (by norm_num)) (by norm_num)
  · rw [hs2]
    unfold getProcessCPUUsage
    simp only [hp2, if_pos rfl]
    exact min_le_right _ _

/-- Witness for C4: clk 100 ticks/s, refreshes at 3000 ms and 6000 ms, a
    50-tick delta. -/
theorem c4_process_cpu_tracker_witness :
    (∀ q : Int, getProcessCPUUsage q procInit = 0) ∧
    getProcessCPUUsage 1 (updateProcessCPUData 100 3000 [⟨1, [], 'R', 0, 0, 0, 0⟩] procInit) = 0 ∧
    0 < getProcessCPUUsage 1 (updateProcessCPUData 100 6000 [⟨1, [], 'R', 0, 0, 30, 20⟩]
        (updateProcessCPUData 100 3000 [⟨1, [], 'R', 0, 0, 0, 0⟩] procInit)) ∧
    getProcessCPUUsage 1 (updateProcessCPUData 100 6000 [⟨1, [], 'R', 0, 0, 30, 20⟩]
        (updateProcessCPUData 100 3000 [⟨1, [], 'R', 0, 0, 0, 0⟩] procInit)) ≤ 100 :=
  c4_process_cpu_tracker 100 3000 6000 1 ⟨1, [], 'R', 0, 0, 0, 0⟩ ⟨1, [], 'R', 0, 0, 30, 20⟩
    rfl rfl (by norm_num) (by norm_num) (by norm_num) (by norm_num)

/-- C5: for a cached entry with positive elapsed wall time, the refreshed
    percent is exactly (tickDelta / elapsedSeconds) / ticksPerSecond × 100
    capped at 100 — and it is not floored below 0: a negative tick delta
    (e.g. PID reuse) produces a negative stored percent. -/
theorem c5_process_cpu_percent_formula (clk now : Int) (s : ProcState) (proc : Proc)
    (e : ProcessCPUData)
    (hent : s.data proc.pid = some e)
    (hth : 3000 ≤ now - s.lastUpdate)
    (htd : 0 < now - e.last_update) :
    getProcessCPUUsage proc.pid (updateProcessCPUData clk now [proc] s) =
      min ((((proc.utime + proc.stime - (e.prev_utime + e.prev_stime) : Int) : ℚ) /
        (((now - e.last_update : Int) : ℚ) / 1000)) / (clk : ℚ) * 100) 100 ∧
    (proc.utime + proc.stime - (e.prev_utime + e.prev_stime) < 0 → 0 < clk →
      getProcessCPUUsage proc.pid (updateProcessCPUData clk now [proc] s) < 0) := by
  have hupd : updateProcessCPUData clk now [proc] s =
      ⟨fun k => if k = proc.pid then
          some ⟨proc.utime, proc.stime,
            min ((((proc.utime + proc.stime - (e.prev_utime + e.prev_stime) : Int) : ℚ) /
              (((now - e.last_update : Int) : ℚ) / 1000)) / (clk : ℚ) * 100) 100, now⟩
        else s.data k, now⟩ := by
    unfold updateProcessCPUData
    rw [if_neg (show ¬ (now - s.lastUpdate < 3000) by omega)]
    simp only [List.foldl_cons, List.foldl_nil, hent, procCacheStep]
    rw [if_pos htd]
  have hval : getProcessCPUUsage proc.pid (updateProcessCPUData clk now [proc] s) =
      min ((((proc.utime + proc.stime - (e.prev_utime + e.prev_stime) : Int) : ℚ) /
        (((now - e.last_update : Int) : ℚ) / 1000)) / (clk : ℚ) * 100) 100 := by
    rw [hupd]
    unfold getProcessCPUUsage
    simp
  refine ⟨hval, fun hneg hclk => ?_⟩
  rw [hval]
  have hΔ : ((proc.utime + proc.stime - (e.prev_utime + e.prev_stime) : Int) : ℚ) < 0 := by
    exact_mod_cast hneg
  have hT : (0:ℚ) < ((now - e.last_update : Int) : ℚ) / 1000 := by
    have h1 : (0:ℚ) < ((now - e.last_update : Int) : ℚ) := by exact_mod_cast htd
    exact div_pos h1 (by norm_num)
  have hC : (0:ℚ) < (clk : ℚ) := by exact_mod_cast hclk
  have hF : (((proc.utime + proc.stime - (e.prev_utime + e.prev_stime) : Int) : ℚ) /
      (((now - e.last_update : Int) : ℚ) / 1000)) / (clk : ℚ) * 100 < 0 :=
    mul_neg_of_neg_of_pos (div_neg_of_neg_of_pos (div_neg_of_neg_of_pos hΔ hT) hC) (by norm_num)
  exact lt_of_le_of_lt (min_le_left _ _) hF

/-- Witness for C5: a cached entry at 1000 ms with 500 previous ticks, a
    refresh at 5000 ms observing only 100 ticks (negative delta from PID
    reuse) yields a negative percent. -/
theorem c5_process_cpu_percent_formula_witness :
    getProcessCPUUsage 1 (updateProcessCPUData 100 5000 [⟨1, [], 'R', 0, 0, 100, 0⟩]
      ⟨fun k => if k = 1 then some ⟨500, 0, 12, 1000⟩ else none, 1000⟩) =
      min ((((100 + 0 - (500 + 0) : Int) : ℚ) /
        (((5000 - 1000 : Int) : ℚ) / 1000)) / ((100 : Int) : ℚ) * 100) 100 ∧
    getProcessCPUUsage 1 (updateProcessCPUData 100 5000 [⟨1, [], 'R', 0, 0, 100, 0⟩]
      ⟨fun k => if k = 1 then some ⟨500, 0, 12, 1000⟩ else none, 1000⟩) < 0 := by
  have h := c5_process_cpu_percent_formula 100 5000
    ⟨fun k => if k = 1 then some ⟨500, 0, 12, 1000⟩ else none, 1000⟩
    ⟨1, [], 'R', 0, 0, 100, 0⟩ ⟨500, 0, 12, 1000⟩
    (by simp) (by norm_num) (by norm_num)
  exact ⟨h.1, h.2 (by norm_num) (by norm_num)⟩

/-- Helper: extracting from the empty stream fails. -/
theorem parseIntTok_nil : parseIntTok [] = none := by decide

/-- Helper: a space-joined stream never starts with a digit. -/
theorem spaceJoin_head_not_digit (toks : List (List Char)) :
    ∀ r, (spaceJoin toks).head? = some r → r.isDigit = false := by
  cases toks with
  | nil => intro r hr; simp [spaceJoin] at hr
  | cons t ts =>
    intro r hr
    have hsj : spaceJoin (t :: ts) = ' ' :: (t ++ spaceJoin ts) := by simp [spaceJoin]
    rw [hsj] at hr
    simp at hr
    subst hr
    decide

/-- Helper: a numeral token extracts as its denoted value. -/
theorem numeralDenotes_parse (t : List Char) (v : Int) (h : numeralDenotes t v)
    (rest : List Char) (hrest : ∀ r, rest.head? = some r → r.isDigit = false) :
    parseIntTok (t ++ rest) = some (v, rest) := by
  obtain ⟨ds, hne, hds, hcase⟩ := h
  rcases hcase with ⟨ht, hv⟩ | ⟨ht, hv⟩
  · subst ht; subst hv
    exact parseIntTok_numeral _ rest hne hds hrest
  · subst ht; subst hv
    exact parseIntTok_neg_numeral ds rest hne hds hrest

/-- Helper: the extraction loop on a space-joined numeral stream yields
    exactly the denoted values (with enough fuel). -/
theorem readIntsAux_spaceJoin (toks : List (List Char)) :
    ∀ (vals : List Int) (fuel : Nat), List.Forall₂ numeralDenotes toks vals →
      (spaceJoin toks).length ≤ fuel → readIntsAux fuel (spaceJoin toks) = vals := by
  induction toks with
  | nil =>
    intro vals fuel hf _
    have hv : vals = [] := by cases hf; rfl
    subst hv
    cases fuel with
    | zero => rfl
    | succ f => simp [spaceJoin, readIntsAux, parseIntTok_nil]
  | cons t ts ih =>
    intro vals fuel hf hlen
    obtain ⟨v, vs, hnum, hrest, rfl⟩ :
        ∃ v vs, numeralDenotes t v ∧ List.Forall₂ numeralDenotes ts vs ∧ vals = v :: vs := by
      cases hf with
      | cons h1 h2 => exact ⟨_, _, h1, h2, rfl⟩
    have hsj : spaceJoin (t :: ts) = ' ' :: (t ++ spaceJoin ts) := by simp [spaceJoin]
    rw [hsj] at hlen ⊢
    cases fuel with
    | zero => simp at hlen
    | succ f =>
      have hp : parseIntTok (' ' :: (t ++ spaceJoin ts)) = some (v, spaceJoin ts) := by
        rw [parseIntTok_space]
        exact numeralDenotes_parse t v hnum (spaceJoin ts) (spaceJoin_head_not_digit ts)
      simp only [readIntsAux, hp]
      have hlen' : (spaceJoin ts).length ≤ f := by
        simp only [List.length_cons, List.length_append] at hlen
        omega
      rw [ih vs f hrest hlen']

/-- Helper: `readInts` on a space-joined numeral stream. -/
theorem readInts_spaceJoin (toks : List (List Char)) (vals : List Int)
    (hf : List.Forall₂ numeralDenotes toks vals) :
    readInts (spaceJoin toks) = vals :=
  readIntsAux_spaceJoin toks vals (spaceJoin toks).length hf (le_refl _)

/-- Helper: the 32-bit wrap is the identity on in-range values. -/
theorem wrap32_of_int32 (v : Int) (h1 : -2147483648 ≤ v) (h2 : v < 2147483648) :
    wrap32 v = v := by
  unfold wrap32
  omega

/-- Helper: processing one well-formed data line. -/
theorem processNetLine_line (maps : (List Char → Option RX) × (List Char → Option TX))
    (ifname : List Char) (toks : List (List Char)) (vals : List Int)
    (hifne : ifname ≠ [])
    (hif : ∀ c ∈ ifname, c ≠ ':' ∧ c ≠ ' ' ∧ c ≠ '\t')
    (hf : List.Forall₂ numeralDenotes toks vals) :
    processNetLine maps (ifname ++ ':' :: spaceJoin toks) =
      if 16 ≤ vals.length then
        (fun k => if k = ifname then
            some ⟨wrap32 (vals.getD 0 0), wrap32 (vals.getD 1 0), wrap32 (vals.getD 2 0),
              wrap32 (vals.getD 3 0), wrap32 (vals.getD 4 0), wrap32 (vals.getD 5 0),
              wrap32 (vals.getD 6 0), wrap32 (vals.getD 7 0)⟩
          else maps.1 k,
         fun k => if k = ifname then
            some ⟨wrap32 (vals.getD 8 0), wrap32 (vals.getD 9 0), wrap32 (vals.getD 10 0),
              wrap32 (vals.getD 11 0), wrap32 (vals.getD 12 0), wrap32 (vals.getD 13 0),
              wrap32 (vals.getD 14 0), wrap32 (vals.getD 15 0)⟩
          else maps.2 k)
      else maps := by
  obtain ⟨c0, t0, rfl⟩ : ∃ c0 t0, ifname = c0 :: t0 := by
    cases ifname with
    | nil => exact absurd rfl hifne
    | cons a b => exact ⟨a, b, rfl⟩
  have hc0 := hif c0 (by simp)
  have hdw : ((c0 :: t0) ++ ':' :: spaceJoin toks).dropWhile (fun c => c = ' ' || c = '\t') =
      (c0 :: t0) ++ ':' :: spaceJoin toks := by
    rw [List.cons_append, List.dropWhile_cons]
    simp [hc0.2.1, hc0.2.2]
  have hff : ffirst (· = ':') ((c0 :: t0) ++ ':' :: spaceJoin toks) =
      some (c0 :: t0).length := by
    apply ffirst_append
    · intro a ha
      simp [(hif a ha).1]
    · simp
  have hie : ((c0 :: t0) ++ ':' :: spaceJoin toks).isEmpty = false := by
    rw [List.cons_append]
    rfl
  have htake : List.take (c0 :: t0).length ((c0 :: t0) ++ ':' :: spaceJoin toks) =
      c0 :: t0 := List.take_left _ _
  have hdrop : List.drop ((c0 :: t0).length + 1) ((c0 :: t0) ++ ':' :: spaceJoin toks) =
      spaceJoin toks := by
    rw [show (c0 :: t0) ++ ':' :: spaceJoin toks =
        ((c0 :: t0) ++ [':']) ++ spaceJoin toks by simp]
    rw [show (c0 :: t0).length + 1 = ((c0 :: t0) ++ [':']).length by simp]
    exact List.drop_left _ _
  unfold processNetLine
  simp only [hdw, hie, Bool.false_eq_true, if_false, hff]
  simp only [htake, hdrop, readInts_spaceJoin toks vals hf]

/-- Helper: the ready flag after a fold of refreshes is true exactly when
    some refresh could open the file. -/
theorem parseNetworkDevFile_foldl_ready (inputs : List (Option (List (List Char)))) :
    ∀ s : NetState,
      (List.foldl (fun s c => parseNetworkDevFile c s) s inputs).ready =
        (s.ready || inputs.any Option.isSome) := by
  induction inputs with
  | nil => intro s; simp
  | cons c rest ih =>
    intro s
    rw [List.foldl_cons, ih]
    cases c with
    | none => simp [parseNetworkDevFile]
    | some lines => simp [parseNetworkDevFile]

/-- Helper: an all-digit token denotes its decimal value. -/
theorem numeralDenotes_of_digits (ds : List Char) (h1 : ds ≠ [])
    (h2 : ∀ c ∈ ds, c.isDigit = true) : numeralDenotes ds (digitsToNat ds : Int) :=
  ⟨ds, h1, h2, Or.inl ⟨rfl, rfl⟩⟩

/-- C6 (counterexample to the claim as frozen): the RX/TX struct fields are C
    `int`; a 16-value line whose first value is 2147483648 parses, but the
    stored bytes field wraps to -2147483648 and does not match the input
    value, so the round-trip is not exact for every choice of the 16 integer
    values. -/
theorem c6_int_truncation_counterexample :
    ((parseNetworkDevFile (some [[], [],
        ("eth0: 2147483648 1 2 3 4 5 6 7 8 9 10 11 12 13 14 15").toList]) netInit).rx
      (("eth0").toList)).map RX.bytes = some (-2147483648) ∧
    (-2147483648 : Int) ≠ 2147483648 := by
  constructor
  · decide
  · decide

/-- C6 (amended): for every interface name and every choice of 16 integer
    values representable in the 32-bit `int` fields, parsing the synthetic
    one-interface table yields an RX entry holding values 1–8 and a TX entry
    holding values 9–16 exactly; a line with fewer than 16 values is
    discarded (no entry is stored). -/
theorem c6_network_parse_roundtrip_int32 (header1 header2 ifname : List Char)
    (toks : List (List Char)) (vals : List Int)
    (hifne : ifname ≠ [])
    (hif : ∀ c ∈ ifname, c ≠ ':' ∧ c ≠ ' ' ∧ c ≠ '\t')
    (hf : List.Forall₂ numeralDenotes toks vals)
    (hlen : vals.length = 16)
    (hrange : ∀ v ∈ vals, -2147483648 ≤ v ∧ v < 2147483648) :
    ((parseNetworkDevFile (some [header1, header2, ifname ++ ':' :: spaceJoin toks])
        netInit).rx ifname =
      some ⟨vals.getD 0 0, vals.getD 1 0, vals.getD 2 0, vals.getD 3 0,
            vals.getD 4 0, vals.getD 5 0, vals.getD 6 0, vals.getD 7 0⟩) ∧
    ((parseNetworkDevFile (some [header1, header2, ifname ++ ':' :: spaceJoin toks])
        netInit).tx ifname =
      some ⟨vals.getD 8 0, vals.getD 9 0, vals.getD 10 0, vals.getD 11 0,
            vals.getD 12 0, vals.getD 13 0, vals.getD 14 0, vals.getD 15 0⟩) ∧
    (∀ (toks' : List (List Char)) (vals' : List Int),
      List.Forall₂ numeralDenotes toks' vals' → vals'.length < 16 →
      (parseNetworkDevFile (some [header1, header2, ifname ++ ':' :: spaceJoin toks'])
          netInit).rx ifname = none ∧
      (parseNetworkDevFile (some [header1, header2, ifname ++ ':' :: spaceJoin toks'])
          netInit).tx ifname = none) := by
  have hfield : ∀ i : Nat, i < 16 → wrap32 (vals.getD i 0) = vals.getD i 0 := by
    intro i hi
    have hi' : i < vals.length := by omega
    have hmem : vals.getD i 0 ∈ vals := by
      rw [List.getD_eq_getElem vals 0 hi']
      exact List.getElem_mem hi'
    exact wrap32_of_int32 _ (hrange _ hmem).1 (hrange _ hmem).2
  have hstep : parseNetworkDevFile (some [header1, header2, ifname ++ ':' :: spaceJoin toks])
      netInit =
      ⟨(processNetLine (fun _ => none, fun _ => none) (ifname ++ ':' :: spaceJoin toks)).1,
       (processNetLine (fun _ => none, fun _ => none) (ifname ++ ':' :: spaceJoin toks)).2,
       true⟩ := by
    rfl
  have hproc := processNetLine_line (fun _ => none, fun _ => none) ifname toks vals hifne hif hf
  rw [if_pos (by omega : 16 ≤ vals.length)] at hproc
  refine ⟨?_, ?_, ?_⟩
  · rw [hstep, hproc]
    simp only [if_pos rfl]
    rw [hfield 0 (by norm_num), hfield 1 (by norm_num), hfield 2 (by norm_num),
        hfield 3 (by norm_num), hfield 4 (by norm_num), hfield 5 (by norm_num),
        hfield 6 (by norm_num), hfield 7 (by norm_num)]
    rfl
  · rw [hstep, hproc]
    simp only [if_pos rfl]
    rw [hfield 8 (by norm_num), hfield 9 (by norm_num), hfield 10 (by norm_num),
        hfield 11 (by norm_num), hfield 12 (by norm_num), hfield 13 (by norm_num),
        hfield 14 (by norm_num), hfield 15 (by norm_num)]
    rfl
  · intro toks' vals' hf' hlen'
    have hstep' : parseNetworkDevFile
        (some [header1, header2, ifname ++ ':' :: spaceJoin toks']) netInit =
        ⟨(processNetLine (fun _ => none, fun _ => none) (ifname ++ ':' :: spaceJoin toks')).1,
         (processNetLine (fun _ => none, fun _ => none) (ifname ++ ':' :: spaceJoin toks')).2,
         true⟩ := by
      rfl
    have hproc' := processNetLine_line (fun _ => none, fun _ => none) ifname toks' vals'
      hifne hif hf'
    rw [if_neg (by omega)] at hproc'
    rw [hstep', hproc']
    exact ⟨rfl, rfl⟩

/-- Witness for C6 (amended) with interface `eth0`, values 1–16, and a
    one-value line for the discard part. -/
theorem c6_network_parse_roundtrip_int32_witness :
    ((parseNetworkDevFile (some [[], [], ("eth0").toList ++ ':' :: spaceJoin
        [['1'],['2'],['3'],['4'],['5'],['6'],['7'],['8'],['9'],
         ['1','0'],['1','1'],['1','2'],['1','3'],['1','4'],['1','5'],['1','6']]])
        netInit).rx (("eth0").toList) = some ⟨1, 2, 3, 4, 5, 6, 7, 8⟩) ∧
    ((parseNetworkDevFile (some [[], [], ("eth0").toList ++ ':' :: spaceJoin
        [['1'],['2'],['3'],['4'],['5'],['6'],['7'],['8'],['9'],
         ['1','0'],['1','1'],['1','2'],['1','3'],['1','4'],['1','5'],['1','6']]])
        netInit).tx (("eth0").toList) = some ⟨9, 10, 11, 12, 13, 14, 15, 16⟩) ∧
    ((parseNetworkDevFile (some [[], [], ("eth0").toList ++ ':' :: spaceJoin [['7']]])
        netInit).rx (("eth0").toList) = none) := by
  have hf : List.Forall₂ numeralDenotes
      [['1'],['2'],['3'],['4'],['5'],['6'],['7'],['8'],['9'],
       ['1','0'],['1','1'],['1','2'],['1','3'],['1','4'],['1','5'],['1','6']]
      [1, 2, 3, 4, 5, 6, 7, 8, 9, 10, 11, 12, 13, 14, 15, 16] := by
    refine .cons ?_ (.cons ?_ (.cons ?_ (.cons ?_ (.cons ?_ (.cons ?_ (.cons ?_ (.cons ?_
      (.cons ?_ (.cons ?_ (.cons ?_ (.cons ?_ (.cons ?_ (.cons ?_ (.cons ?_ (.cons ?_
      .nil))))))))))))))) <;>
      exact numeralDenotes_of_digits _ (by decide) (by decide)
  have hf1 : List.Forall₂ numeralDenotes [['7']] [7] :=
    .cons (numeralDenotes_of_digits _ (by decide) (by decide)) .nil
  have h := c6_network_parse_roundtrip_int32 [] [] (("eth0").toList)
    [['1'],['2'],['3'],['4'],['5'],['6'],['7'],['8'],['9'],
     ['1','0'],['1','1'],['1','2'],['1','3'],['1','4'],['1','5'],['1','6']]
    [1, 2, 3, 4, 5, 6, 7, 8, 9, 10, 11, 12, 13, 14, 15, 16]
    (by decide) (by decide) hf (by decide) (by decide)
  exact ⟨h.1, h.2.1, (h.2.2 [['7']] [7] hf1 (by norm_num)).1⟩

/-- C7: the ready flag starts false and, across any sequence of refreshes
    from program start, is true exactly when some refresh could open the
    device table; each successful refresh sets it and fully replaces both
    maps — its result state is independent of the prior map contents. -/
theorem c7_network_ready_flag :
    netInit.ready = false ∧
    (∀ inputs : List (Option (List (List Char))),
      (List.foldl (fun s c => parseNetworkDevFile c s) netInit inputs).ready =
        inputs.any Option.isSome) ∧
    (∀ (lines : List (List Char)) (s : NetState),
      (parseNetworkDevFile (some lines) s).ready = true ∧
      parseNetworkDevFile (some lines) s = parseNetworkDevFile (some lines) netInit) := by
  refine ⟨rfl, ?_, ?_⟩
  · intro inputs
    rw [parseNetworkDevFile_foldl_ready inputs netInit]
    simp [netInit]
  · intro lines s
    exact ⟨rfl, rfl⟩

/-- C9: when the device table cannot be opened, the refresh returns at once
    and the whole network state — RX map, TX map and ready flag — is exactly
    what it was. -/
theorem c9_refresh_noop_when_unopenable (s : NetState) :
    parseNetworkDevFile none s = s := rfl

/-- Helper: the thermal candidate loop on all-failing paths. -/
theorem thermalProbe_all_none (fs : SensorFS) (ps : List String)
    (h : ∀ p ∈ ps, tryReadInt fs p = none) :
    thermalProbe fs ps = { temperature := 0, available := false } := by
  induction ps with
  | nil => rfl
  | cons p rest ih =>
    have hp := h p (by simp)
    simp only [thermalProbe, hp]
    exact ih (fun q hq => h q (by simp [hq]))

/-- Helper: the thermal candidate loop stops at the first parsing path. -/
theorem thermalProbe_first (fs : SensorFS) (ps1 : List String) (p : String)
    (ps2 : List String) (v : Int)
    (h1 : ∀ q ∈ ps1, tryReadInt fs q = none) (hp : tryReadInt fs p = some v) :
    thermalProbe fs (ps1 ++ p :: ps2) =
      { temperature := (v : ℚ) / 1000, available := true } := by
  induction ps1 with
  | nil => simp only [List.nil_append, thermalProbe, hp]
  | cons q rest ih =>
    have hq := h1 q (by simp)
    simp only [List.cons_append, thermalProbe, hq]
    exact ih (fun r hr => h1 r (by simp [hr]))

/-- Helper: a fan index whose speed file cannot be read is skipped. -/
theorem tryFanNum_none (fs : SensorFS) (info : FanInfo) (dir n : String)
    (h : tryReadInt fs (dir ++ "/fan" ++ n ++ "_input") = none) :
    tryFanNum fs info dir n = (false, info) := by
  unfold tryFanNum
  rw [h]
  rfl

/-- Helper: the inner fan loop with no readable speed file. -/
theorem tryFanList_none (fs : SensorFS) (dir : String) (ns : List String)
    (h : ∀ n ∈ ns, tryReadInt fs (dir ++ "/fan" ++ n ++ "_input") = none) :
    ∀ info, tryFanList fs dir info ns = (false, info) := by
  induction ns with
  | nil => intro info; rfl
  | cons n rest ih =>
    intro info
    have hn := tryFanNum_none fs info dir n (h n (by simp))
    simp only [tryFanList, hn]
    exact ih (fun m hm => h m (by simp [hm])) info

/-- Helper: the directory loop with no readable speed file anywhere. -/
theorem fanDirsLoop_none (fs : SensorFS) (dirs : List String)
    (h : ∀ d ∈ dirs, ∀ n ∈ fanNums, tryReadInt fs (d ++ "/fan" ++ n ++ "_input") = none) :
    ∀ info, fanDirsLoop fs info dirs = info := by
  induction dirs with
  | nil => intro info; rfl
  | cons d rest ih =>
    intro info
    have hd := tryFanList_none fs d fanNums (h d (by simp)) info
    simp only [fanDirsLoop, hd]
    exact ih (fun e he => h e (by simp [he])) info

/-- C8: with every thermal candidate unreadable, `getThermalInfo` reports
    unavailable with temperature 0; when some candidate parses, the first
    success wins and its raw millidegree value is divided by 1000; with every
    fan speed file unreadable, `getFanInfo` reports unavailable with speed,
    level and active at their zero defaults; nothing is thrown (the functions
    are total). -/
theorem c8_sensor_absence_and_first_success :
    (∀ fs : SensorFS, (∀ p ∈ thermalPaths, tryReadInt fs p = none) →
      getThermalInfo fs = { temperature := 0, available := false }) ∧
    (∀ (fs : SensorFS) (ps1 : List String) (p : String) (ps2 : List String) (v : Int),
      thermalPaths = ps1 ++ p :: ps2 → (∀ q ∈ ps1, tryReadInt fs q = none) →
      tryReadInt fs p = some v →
      getThermalInfo fs = { temperature := (v : ℚ) / 1000, available := true }) ∧
    (∀ (fs : SensorFS) (dirs : List String),
      (∀ d ∈ dirs, ∀ n ∈ fanNums, tryReadInt fs (d ++ "/fan" ++ n ++ "_input") = none) →
      getFanInfo fs dirs = { speed := 0, level := 0, active := false, available := false }) := by
  refine ⟨?_, ?_, ?_⟩
  · intro fs h
    exact thermalProbe_all_none fs thermalPaths h
  · intro fs ps1 p ps2 v hsplit h1 hp
    unfold getThermalInfo
    rw [hsplit]
    exact thermalProbe_first fs ps1 p ps2 v h1 hp
  · intro fs dirs h
    unfold getFanInfo
    exact fanDirsLoop_none fs dirs h _

/-- Witness for C8: an empty filesystem for the absence parts, and one with
    only thermal_zone1 present (reading 45000 millidegrees) for the
    first-success part. -/
theorem c8_sensor_absence_and_first_success_witness :
    getThermalInfo (fun _ => none) = { temperature := 0, available := false } ∧
    getThermalInfo (fun p => if p = "/sys/class/thermal/thermal_zone1/temp"
        then some (some "45000") else none) =
      { temperature := ((45000 : Int) : ℚ) / 1000, available := true } ∧
    getFanInfo (fun _ => none) ["/sys/class/hwmon/hwmon0", "/sys/class/hwmon/hwmon1"] =
      { speed := 0, level := 0, active := false, available := false } := by
  refine ⟨?_, ?_, ?_⟩
  · exact c8_sensor_absence_and_first_success.1 (fun _ => none) (by decide)
  · exact c8_sensor_absence_and_first_success.2.1
      (fun p => if p = "/sys/class/thermal/thermal_zone1/temp" then some (some "45000") else none)
      ["/sys/class/thermal/thermal_zone0/temp"]
      "/sys/class/thermal/thermal_zone1/temp"
      ["/sys/class/hwmon/hwmon0/temp1_input",
       "/sys/class/hwmon/hwmon1/temp1_input",
       "/sys/class/hwmon/hwmon2/temp1_input"]
      45000 (by decide) (by decide) (by decide)
  · exact c8_sensor_absence_and_first_success.2.2 (fun _ => none)
      ["/sys/class/hwmon/hwmon0", "/sys/class/hwmon/hwmon1"] (by decide)

/-- C10: when no thermal sensor is available on a poll, the update stores
    the false availability flag but leaves both the current temperature and
    the thermal history exactly as they were (and the pause flag too). -/
theorem c10_thermal_unavailable_keeps_value_and_history (fs : SensorFS) (s : ThermalState)
    (h : (getThermalInfo fs).available = false) :
    (updateThermalHistory fs s).available = false ∧
    (updateThermalHistory fs s).curTemp = s.curTemp ∧
    (updateThermalHistory fs s).hist = s.hist ∧
    (updateThermalHistory fs s).paused = s.paused := by
  unfold updateThermalHistory
  rw [if_neg (by simp [h])]
  exact ⟨h, rfl, rfl, rfl⟩

/-- Witness for C10: empty sensor filesystem, a state holding temperature 37
    and a two-sample history. -/
theorem c10_thermal_unavailable_keeps_value_and_history_witness :
    (updateThermalHistory (fun _ => none) ⟨37, [35, 36], true, false⟩).available = false ∧
    (updateThermalHistory (fun _ => none) ⟨37, [35, 36], true, false⟩).curTemp = 37 ∧
    (updateThermalHistory (fun _ => none) ⟨37, [35, 36], true, false⟩).hist = [35, 36] ∧
    (updateThermalHistory (fun _ => none) ⟨37, [35, 36], true, false⟩).paused = false :=
  c10_thermal_unavailable_keeps_value_and_history (fun _ => none) ⟨37, [35, 36], true, false⟩
    (by decide)
